import Mathlib

/-!
Verification development for the oracle-rag repository.

The Python modules under `src/oracle_rag` are shallowly embedded as Lean
definitions.  Python `str` values are modelled as Lean `String`s, but every
string operation the code uses (`str.strip`, `str.split("\n")`,
`"\n".join`, regex tests on already-stripped lines) is given an explicit
executable definition over the character list, so all definitions evaluate
by kernel reduction.  Python dict metadata is modelled as a record of
optional fields, one field per metadata key the code reads or writes; a
missing dict key is `none`.  External collaborators (the langchain
`RecursiveCharacterTextSplitter`, the Chroma vector store, the embedding
and chat models, the retriever) are modelled at their interfaces: the
splitter as a function `String → List String`, the store as the list of
persisted records, the chat model as a function that either returns text or
raises (`Except`), and retrieval as the list of documents it produced.
-/

namespace OracleRag

/-- Python string whitespace test (`str.strip` strips these). -/
def isPyWhitespace (c : Char) : Bool := c.isWhitespace

/-- Model of Python `str.strip()`. -/
def pyStrip (s : String) : String :=
  String.mk (((s.toList.dropWhile isPyWhitespace).reverse.dropWhile isPyWhitespace).reverse)

/-- Split a character list at newline characters (Python `str.split("\n")`). -/
def splitNlChars : List Char → List (List Char)
  | [] => [[]]
  | c :: cs =>
    let rest := splitNlChars cs
    if c == '\n' then [] :: rest
    else
      match rest with
      | [] => [[c]]
      | l :: ls => (c :: l) :: ls

/-- Model of Python `text.split("\n")`. -/
def splitNl (s : String) : List String :=
  (splitNlChars s.toList).map (fun cs => String.mk cs)

/-- Model of Python `sep.join(parts)`. -/
def joinWith (sep : String) (parts : List String) : String :=
  match parts with
  | [] => ""
  | p :: ps => ps.foldl (fun acc q => acc ++ sep ++ q) p

/-- A single newline, the separator used by `"\n".join`. -/
def NL : String := String.mk ['\n']

/-- `True` iff the string is empty (Python falsiness of `str`). -/
def strIsEmpty (s : String) : Bool := s.toList.isEmpty

/-- A value stored under the `page` metadata key.  `int n` is a value that
Python `int(...)` coerces to `n`; `other` is a value on which `int(...)`
raises `TypeError`/`ValueError` (carrying its display string). -/
inductive PageVal where
  | int (n : Int)
  | other (s : String)
deriving DecidableEq

/-- The metadata dict of a langchain `Document` in this code base, one
optional field per key the repository reads or writes (`none` = key absent). -/
structure Metadata where
  source : Option String := none
  file_name : Option String := none
  page : Option PageVal := none
  total_pages : Option Nat := none
  chunk_index : Option Nat := none
  document_id : Option String := none
  section_ : Option String := none
  upload_timestamp : Option String := none
  doc_pages : Option Nat := none
  doc_bytes : Option Nat := none
  doc_total_chunks : Option Nat := none
  tag : Option String := none
deriving DecidableEq

/-- A langchain `Document`: page content plus metadata.
(The Python field `section` is named `section_` here because `section` is a
Lean keyword.) -/
structure Document where
  page_content : String
  metadata : Metadata
deriving DecidableEq

/-! ## chunking/splitter.py -/

/-- `HEADING_LINE_MAX_LEN` from `chunking/splitter.py`. -/
def HEADING_LINE_MAX_LEN : Nat := 60

/-- `re.search(r"[.!?]\s*$", stripped)` on an already-stripped string: the
last character is sentence-terminal punctuation. -/
def endsSentencePunct (s : String) : Bool :=
  match s.toList.getLast? with
  | some c => c == '.' || c == '!' || c == '?'
  | none => false

/-- `re.search(r"[#/=;]", stripped)`: the string contains a code-ish
character. -/
def containsCodeChar (s : String) : Bool :=
  s.toList.any (fun c => c == '#' || c == '/' || c == '=' || c == ';')

/-- `_is_heading_line` from `chunking/splitter.py`. -/
def _is_heading_line (line : String) : Bool :=
  let stripped := pyStrip line
  if strIsEmpty stripped then false
  else if containsCodeChar stripped then false
  else decide (stripped.length ≤ HEADING_LINE_MAX_LEN) && !endsSentencePunct stripped

/-- `_extract_heading_from_chunk` from `chunking/splitter.py`. -/
def _extract_heading_from_chunk (content : String) : Option String :=
  let first_line := if strIsEmpty content then "" else pyStrip ((splitNl content).headD "")
  if _is_heading_line first_line then some first_line else none

/-- One iteration of the loop in `_ensure_heading_paragraph_breaks`
(`out` is the accumulator list of output lines). -/
def ensureStep (out : List String) (line : String) : List String :=
  let stripped := pyStrip line
  if strIsEmpty stripped then out ++ [line]
  else if decide (stripped.length ≤ HEADING_LINE_MAX_LEN) && !endsSentencePunct stripped then
    if !out.isEmpty && !strIsEmpty (pyStrip (out.getLastD "")) then out ++ ["", line]
    else out ++ [line]
  else out ++ [line]

/-- `_ensure_heading_paragraph_breaks` from `chunking/splitter.py`:
insert a paragraph break before short lines without trailing sentence
punctuation.  (Note: unlike `_is_heading_line`, this pre-pass performs no
check for the characters `# / = ;`.) -/
def _ensure_heading_paragraph_breaks (text : String) : String :=
  joinWith NL ((splitNl text).foldl ensureStep [])

/-- The per-line condition under which the pre-pass treats a line as
heading-like: non-empty after stripping, at most `HEADING_LINE_MAX_LEN`
characters, and no trailing `.`, `!`, `?`. -/
def preBreakCond (line : String) : Bool :=
  let stripped := pyStrip line
  !strIsEmpty stripped
    && decide (stripped.length ≤ HEADING_LINE_MAX_LEN) && !endsSentencePunct stripped

/-- Reference formulation of the pre-pass (for the amended claim C6): walk
the original lines pairwise, inserting an empty line before exactly those
lines satisfying `preBreakCond` whose preceding original line is not blank;
the first line never receives a break. -/
def insertBreaksSpec (prev : String) : List String → List String
  | [] => []
  | l :: rest =>
    (if preBreakCond l && !strIsEmpty (pyStrip prev) then ["", l] else [l])
      ++ insertBreaksSpec l rest

/-- Reference formulation of the pre-pass, top level (see
`insertBreaksSpec`). -/
def ensureBreaksSpec : List String → List String
  | [] => []
  | l :: rest => l :: insertBreaksSpec l rest

/-- Python `a or b` for a dict lookup: use `b` when the lookup is `None`
or the empty string (falsy). -/
def pyOrD (a : Option String) (b : String) : String :=
  match a with
  | some s => if strIsEmpty s then b else s
  | none => b

/-- `doc.metadata.get(key)` for the string-valued keys used by
`chunk_documents` (`document_id_key` is a dict key in the source). -/
def metaGet (m : Metadata) (key : String) : Option String :=
  if key == "file_name" then m.file_name
  else if key == "source" then m.source
  else if key == "document_id" then m.document_id
  else none

/-- The `for idx, chunk in enumerate(split_chunks)` loop of
`chunk_documents`: stamp `chunk_index`, `document_id` and the tracked
current section on each emitted chunk. -/
def stampLoop (docId : String) (meta : Metadata) :
    List String → Nat → String → List Document
  | [], _, _ => []
  | c :: rest, idx, current =>
    let current' :=
      match _extract_heading_from_chunk c with
      | some h => h
      | none => current
    ⟨c, { meta with
          chunk_index := some idx
          document_id := some docId
          section_ := some current' }⟩
      :: stampLoop docId meta rest (idx + 1) current'

/-- The body of `chunk_documents` for one page document.  `split` is the
external langchain `RecursiveCharacterTextSplitter` (an external
collaborator), as the function taking the (pre-processed) page text to the
ordered list of chunk contents; `splitter.split_documents([doc])` copies
the metadata of `doc` onto every chunk. -/
def chunkPage (split : String → List String) (document_id_key : String)
    (respect_heading_lines : Bool) (doc : Document) : List Document :=
  let content :=
    if respect_heading_lines then _ensure_heading_paragraph_breaks doc.page_content
    else doc.page_content
  let docId := pyOrD (metaGet doc.metadata document_id_key)
    ((metaGet doc.metadata "source").getD "")
  stampLoop docId doc.metadata (split content) 0 ""

/-- `chunk_documents` from `chunking/splitter.py` (defaults in the source:
`document_id_key="file_name"`, `respect_heading_lines=True`). -/
def chunk_documents (split : String → List String) (documents : List Document)
    (document_id_key : String) (respect_heading_lines : Bool) : List Document :=
  if documents.isEmpty then []
  else ((documents.map (chunkPage split document_id_key respect_heading_lines)).flatten)

/-! ## rag/formatting.py -/

/-- The document-id fallback chain used by `format_docs`/`format_sources`:
`meta.get("document_id") or meta.get("file_name") or meta.get("source") or d`
(Python `or` skips `None` and the empty string). -/
def docIdChain (m : Metadata) (d : String) : String :=
  pyOrD m.document_id (pyOrD m.file_name (pyOrD m.source d))

/-- Display of `meta.get("page", "?")` inside the `format_docs` labels. -/
def pageDisplay (p : Option PageVal) : String :=
  match p with
  | some (.int n) => toString n
  | some (.other s) => s
  | none => "?"

/-- `int(meta.get("page", 0))` with `TypeError`/`ValueError` handled as `0`,
from `format_sources`. -/
def pageCoerce (p : Option PageVal) : Int :=
  match p with
  | some (.int n) => n
  | some (.other _) => 0
  | none => 0

/-- `format_docs` from `rag/formatting.py`. -/
def format_docs (docs : List Document) (number_chunks : Bool) : String :=
  if docs.isEmpty then "No relevant context found."
  else
    let parts := (List.enumFrom 1 docs).map (fun p =>
      let doc := p.2
      let doc_id := docIdChain doc.metadata "?"
      let page := pageDisplay doc.metadata.page
      if number_chunks then
        "[" ++ toString p.1 ++ "] (doc: " ++ doc_id ++ ", p. " ++ page ++ ")"
          ++ NL ++ doc.page_content
      else doc.page_content)
    joinWith (NL ++ NL) parts

/-- The `(document_id, page)` citation key built for one retrieved document
in `format_sources`. -/
def sourceKey (m : Metadata) : String × Int :=
  (docIdChain m "?", pageCoerce m.page)

/-- `format_sources` from `rag/formatting.py`.  The Python loop keeps a
`seen` set alongside the `out` list; the set always holds exactly the keys
already in `out`, so membership in the accumulator is the same test. -/
def format_sources (docs : List Document) : List (String × Int) :=
  docs.foldl (fun acc doc =>
    let key := sourceKey doc.metadata
    if key ∈ acc then acc else acc ++ [key]) []

/-- Reference formulation for claim C9: keep the first occurrence of each
key, dropping every later duplicate. -/
def dedupFirstSpec : List (String × Int) → List (String × Int)
  | [] => []
  | k :: rest => k :: dedupFirstSpec (rest.filter (fun x => decide (x ≠ k)))
termination_by l => l.length
decreasing_by
  simp_wf
  exact Nat.lt_succ_of_le (List.length_filter_le _ _)

/-! ## rag/prompts.py and rag/chain.py -/

/-- `RAG_SYSTEM` from `rag/prompts.py`. -/
def RAG_SYSTEM : String :=
  "You are a helpful assistant that answers questions based only on the provided context from PDF documents."
    ++ NL ++ "If the context does not contain enough information to answer the question, say so."
    ++ NL ++ "You may cite sources using the labels [1], [2], etc. that appear next to each context block."

/-- The rendered messages of `RAG_PROMPT.invoke(\x7bcontext, question\x7d)`:
a system turn and a human turn with the placeholders substituted. -/
def ragPromptMessages (context question : String) : List (String × String) :=
  [("system", RAG_SYSTEM),
   ("human", "Context:" ++ NL ++ context ++ NL ++ NL ++ "Question: " ++ question)]

/-- Result type of `run_rag` (`RAGResult` in `rag/chain.py`); a source
citation is its `(document_id, page)` pair. -/
structure RAGResult where
  answer : String
  sources : List (String × Int)
deriving DecidableEq

/-- `run_rag` from `rag/chain.py`.  The retriever is an external
collaborator: `docs` is the list it returned for the query (whether the
caller passed a retriever or legacy parameters).  The chat model is the
external collaborator `llm`, mapping the rendered prompt messages either to
the response text (`.ok`) or to a raised exception (`.error`).  The source
formats the prompt, invokes the model, and returns the answer with
citations; it contains no empty-retrieval short circuit and no exception
handler. -/
def run_rag (query : String) (docs : List Document)
    (llm : List (String × String) → Except String String) : Except String RAGResult :=
  let messages := ragPromptMessages (format_docs docs true) query
  match llm messages with
  | .error e => .error e
  | .ok response => .ok ⟨response, format_sources docs⟩

/-- `needle` occurs as a contiguous substring of `hay` (used to state what
an answer "contains"). -/
def strContainsSubstr (hay needle : String) : Bool :=
  hay.toList.tails.any (fun t => needle.toList.isPrefixOf t)

/-! ## indexing/pdf_indexer.py -/

/-- The persisted Chroma collection: the list of stored chunk records
(content plus metadata; embeddings are generated by the store and carry no
information the claims mention). -/
structure Store where
  records : List Document
deriving DecidableEq

/-- `store._collection.delete(where=\x7b"document_id": docId\x7d)`: remove
every record whose `document_id` metadata equals `docId`. -/
def deleteWhereDocumentId (store : Store) (docId : String) : Store :=
  ⟨store.records.filter (fun r => !(r.metadata.document_id == some docId))⟩

/-- Number of stored records whose `document_id` metadata equals `docId`. -/
def countForDocument (store : Store) (docId : String) : Nat :=
  (store.records.filter (fun r => r.metadata.document_id == some docId)).length

/-- The batches produced by `for i in range(0, len(chunk_docs), batch_size)`
with `batch_size = 100`. -/
def toBatches : List Document → List (List Document)
  | [] => []
  | x :: xs => ((x :: xs).take 100) :: toBatches (xs.drop 99)
termination_by l => l.length
decreasing_by
  simp_wf
  exact Nat.lt_succ_of_le (Nat.sub_le _ _)

/-- The batched insertion loop of `index_pdf`: add each batch of 100 chunks
to the store in order (`store.add_documents(batch)` appends the records). -/
def addDocumentsBatched (store : Store) (chunk_docs : List Document) : Store :=
  if chunk_docs.isEmpty then store
  else (toBatches chunk_docs).foldl (fun s b => ⟨s.records ++ b⟩) store

/-- `PdfLoadResult` from `pdf/pypdf_loader.py` (the output of the extraction
collaborator): per-page documents, the page count, and the resolved source path. -/
structure PdfLoadResult where
  source_path : String
  documents : List Document
  total_pages : Nat
deriving DecidableEq

/-- `IndexResult` from `indexing/pdf_indexer.py`. -/
structure IndexResult where
  source_path : String
  total_pages : Nat
  total_chunks : Nat
  persist_directory : String
  collection_name : String
deriving DecidableEq

/-- The document-level stamping loop of `index_pdf`: set
`upload_timestamp`, `doc_pages`, `doc_bytes` and `doc_total_chunks` on a
chunk.  No `tag` key is ever written (`index_pdf` accepts no tag). -/
def stampDocMeta (upload_ts : String) (doc_pages doc_bytes doc_total_chunks : Nat)
    (d : Document) : Document :=
  ⟨d.page_content, { d.metadata with
      upload_timestamp := some upload_ts
      doc_pages := some doc_pages
      doc_bytes := some doc_bytes
      doc_total_chunks := some doc_total_chunks }⟩

/-- `index_pdf` from `indexing/pdf_indexer.py`.  External collaborators are
passed at their interfaces: `split` is the text splitter built from the
configured chunk size/overlap, `pdf_result` is what `load_pdf_as_documents`
returned, `file_name` is `pdf_path.name`, `doc_bytes` is
`pdf_path.stat().st_size`, `upload_ts` is the current UTC timestamp, and
`store` is the Chroma collection.  Returns the updated store and the
`IndexResult`. -/
def index_pdf (split : String → List String) (pdf_result : PdfLoadResult)
    (file_name : String) (doc_bytes : Nat) (upload_ts : String)
    (persist_directory collection_name : String) (store : Store) :
    Store × IndexResult :=
  let chunk_docs := chunk_documents split pdf_result.documents "file_name" true
  let stamped := chunk_docs.map
    (stampDocMeta upload_ts pdf_result.total_pages doc_bytes chunk_docs.length)
  let document_id := file_name
  let store1 := deleteWhereDocumentId store document_id
  let store2 := addDocumentsBatched store1 stamped
  (store2, ⟨pdf_result.source_path, pdf_result.total_pages, chunk_docs.length,
    persist_directory, collection_name⟩)

/-! ## mcp/tools.py -/

/-- `query_pdf` from `mcp/tools.py`.  `persistDirExists` models
`Path(persist_dir).exists()`; `docs` is what retrieval inside `run_rag`
produced and `llm` is the chat model (external collaborators).  The shipped
function takes no `page_min`/`page_max`/`tag` parameters; after its four
validations it always proceeds to `run_rag`. -/
def query_pdf (query : String) (k : Int) (collection : String)
    (persistDirExists : Bool) (document_id : Option String)
    (docs : List Document)
    (llm : List (String × String) → Except String String) :
    Except String (String × List (String × Int)) :=
  if strIsEmpty (pyStrip query) then .error "Query cannot be empty"
  else if k < 1 ∨ k > 100 then .error "k must be an integer between 1 and 100"
  else if strIsEmpty (pyStrip collection) then .error "collection cannot be empty"
  else if !persistDirExists then .error "Persistence directory does not exist"
  else
    let _doc_id_filter :=
      match document_id with
      | some d => if strIsEmpty (pyStrip d) then none else some (pyStrip d)
      | none => none
    match run_rag query docs llm with
    | .error e => .error e
    | .ok r => .ok (r.answer, r.sources)

/-- `remove_pdf` from `mcp/tools.py`: validate inputs, count the chunks
matching the stripped `document_id`, delete them only when at least one
matches, and return the updated store with `deleted_chunks`. -/
def remove_pdf (document_id : String) (collection : String)
    (persistDirExists : Bool) (store : Store) :
    Except String (Store × Nat) :=
  if strIsEmpty (pyStrip document_id) then .error "document_id cannot be empty"
  else if strIsEmpty (pyStrip collection) then .error "collection cannot be empty"
  else if !persistDirExists then .error "Persistence directory does not exist"
  else
    let ids := store.records.filter
      (fun r => r.metadata.document_id == some (pyStrip document_id))
    let deleted_count := ids.length
    let store' :=
      if !ids.isEmpty then deleteWhereDocumentId store (pyStrip document_id)
      else store
    .ok (store', deleted_count)

/-- The page-range validation performed by `scripts/rag_cli.py` before it
builds any retriever or calls `run_rag`: `parser.error` aborts when exactly
one bound is given, or when both are given with `page_min > page_max`. -/
def pageRangeError (page_min page_max : Option Int) : Option String :=
  if page_min.isSome != page_max.isSome then
    some "--page-min and --page-max must be provided together"
  else
    match page_min, page_max with
    | some a, some b =>
      if a > b then some "--page-min must be <= --page-max" else none
    | _, _ => none

/-! ## Concrete fixtures used by witnesses and counterexamples -/

/-- A splitter whose input fits in a single chunk (what the langchain
splitter returns when the text is shorter than the chunk size). -/
def oneChunkSplit : String → List String := fun t => [t]

/-- Page metadata as produced by `load_pdf_as_documents` for page 1 of
`file.pdf` (no `tag` key is ever written by the loader). -/
def pageMeta1 : Metadata :=
  { source := some "/path/to/file.pdf"
    file_name := some "file.pdf"
    page := some (.int 1)
    total_pages := some 1 }

/-- The single-page document of the section carry-forward example. -/
def introDoc : Document := ⟨"Introduction" ++ NL ++ NL ++ "First paragraph.", pageMeta1⟩

/-- A page whose text has no heading-like line. -/
def noHeadingDoc : Document :=
  ⟨"This is a sentence." ++ NL ++ NL ++ "More content here.", pageMeta1⟩

/-- Two short pages of one document (pages 1 and 2 of `file.pdf`). -/
def twoPages : List Document :=
  [⟨"First page text.", pageMeta1⟩,
   ⟨"Second page text.",
    { source := some "/path/to/file.pdf"
      file_name := some "file.pdf"
      page := some (.int 2)
      total_pages := some 2 }⟩]

/-- Retrieved documents for the `format_sources` deduplication example:
pages 1, 1 and 2 of `f.pdf`. -/
def dedupDocs : List Document :=
  [⟨"x", { document_id := some "f.pdf", page := some (.int 1) }⟩,
   ⟨"y", { document_id := some "f.pdf", page := some (.int 1) }⟩,
   ⟨"z", { document_id := some "f.pdf", page := some (.int 2) }⟩]

/-- Retrieved documents whose `page` metadata is missing or unparseable. -/
def badPageDocs : List Document :=
  [⟨"x", { document_id := some "g.pdf" }⟩,
   ⟨"y", { document_id := some "g.pdf", page := some (.other "N/A") }⟩]

/-- The retrieved context document of the generation-failure scenario. -/
def contextDoc : Document :=
  ⟨"Some context.", { document_id := some "a.pdf", page := some (.int 1) }⟩

/-- A store holding one chunk of another document. -/
def otherStore : Store :=
  ⟨[⟨"other text", { document_id := some "other.pdf", page := some (.int 3) }⟩]⟩

/-- The pre-pass counterexample input: a sentence-terminated line followed
by a short code-like line containing `=`. -/
def codeLineText : String := "End of sentence." ++ NL ++ "x = 1"

/-! ## Helper lemmas -/

theorem getLastD_append_cons (out : List String) (x : String) (xs : List String) :
    ∀ d, (out ++ x :: xs).getLastD d = (x :: xs).getLastD d := by
  induction out with
  | nil => intro d; rfl
  | cons a out ih =>
    intro d
    rw [List.cons_append, List.getLastD_cons, ih a, List.getLastD_cons,
      List.getLastD_cons]

theorem ensureFold_eq (lines : List String) :
    ∀ (out : List String) (prev : String), out ≠ [] → out.getLastD "" = prev →
      lines.foldl ensureStep out = out ++ insertBreaksSpec prev lines := by
  induction lines with
  | nil => intro out prev _ _; simp [insertBreaksSpec]
  | cons l rest ih =>
    intro out prev hne hlast
    have hlast' : out.getLast?.getD "" = prev := by
      rw [← List.getLastD_eq_getLast?]
      exact hlast
    rw [List.foldl_cons, insertBreaksSpec]
    by_cases h1 : strIsEmpty (pyStrip l) = true
    · have hpre : preBreakCond l = false := by
        simp [preBreakCond, h1]
      rw [show ensureStep out l = out ++ [l] by simp [ensureStep, h1]]
      rw [ih (out ++ [l]) l (by simp) (getLastD_append_cons out l [] "")]
      simp [hpre]
    · have h1f : strIsEmpty (pyStrip l) = false := Bool.eq_false_iff.mpr h1
      by_cases h2 : (decide (String.length (pyStrip l) ≤ HEADING_LINE_MAX_LEN)
          && !endsSentencePunct (pyStrip l)) = true
      · have hpre : preBreakCond l = true := by
          simp only [preBreakCond]
          rw [Bool.and_assoc, h2, Bool.and_true, h1f, Bool.not_false]
        have hout : out.isEmpty = false := by
          cases out with
          | nil => exact absurd rfl hne
          | cons a as => rfl
        by_cases h3 : strIsEmpty (pyStrip prev) = true
        · rw [show ensureStep out l = out ++ [l] by
            simp [ensureStep, h1, h2, hout, hlast', h3]]
          rw [ih (out ++ [l]) l (by simp) (getLastD_append_cons out l [] "")]
          simp [hpre, h3]
        · rw [show ensureStep out l = out ++ ["", l] by
            simp [ensureStep, h1, h2, hout, hlast', h3]]
          rw [ih (out ++ ["", l]) l (by simp) (getLastD_append_cons out "" [l] "")]
          simp [hpre, h3]
      · have h2f : (decide (String.length (pyStrip l) ≤ HEADING_LINE_MAX_LEN)
            && !endsSentencePunct (pyStrip l)) = false := Bool.eq_false_iff.mpr h2
        have hpre : preBreakCond l = false := by
          simp only [preBreakCond]
          rw [Bool.and_assoc, h2f, Bool.and_false]
        rw [show ensureStep out l = out ++ [l] by simp [ensureStep, h1, h2]]
        rw [ih (out ++ [l]) l (by simp) (getLastD_append_cons out l [] "")]
        simp [hpre]

/-- Claim C6 (amended form).  For every page text, the pre-pass inserts a
paragraph break exactly before those lines that, after trimming, are
non-empty, at most 60 characters long and have no trailing `.`, `!`, `?`
(`preBreakCond`), provided the preceding original line exists and is not
blank; the `# / = ;` exclusion applies only to the section-heading
heuristic (`_is_heading_line`), not to this pre-pass. -/
theorem C6_pre_pass_amended (text : String) :
    _ensure_heading_paragraph_breaks text
      = joinWith NL (ensureBreaksSpec (splitNl text)) := by
  unfold _ensure_heading_paragraph_breaks
  cases h : splitNl text with
  | nil => rfl
  | cons l rest =>
    have hstep : ensureStep [] l = [l] := by
      simp [ensureStep]
    rw [List.foldl_cons, hstep, ensureFold_eq rest [l] l (by simp) rfl]
    simp [ensureBreaksSpec]

/-- Claim C6 counterexample.  In `"End of sentence.\nx = 1"` no line
satisfies the heading predicate of the claim (the first ends in `.`, the second
contains `=`), so the claim, as stated, predicts that no break is inserted;
the code nevertheless inserts one before `"x = 1"`. -/
theorem C6_counterexample :
    (∀ l ∈ splitNl codeLineText, _is_heading_line l = false) ∧
    _ensure_heading_paragraph_breaks codeLineText
      = "End of sentence." ++ NL ++ NL ++ "x = 1" ∧
    _ensure_heading_paragraph_breaks codeLineText ≠ codeLineText := by
  exact ⟨by decide, by decide, by decide⟩

/-! Lemmas about the chunk-stamping loop. -/

theorem stampLoop_length (docId : String) (meta : Metadata) :
    ∀ (cs : List String) (idx : Nat) (cur : String),
      (stampLoop docId meta cs idx cur).length = cs.length := by
  intro cs
  induction cs with
  | nil => intro idx cur; rfl
  | cons c rest ih =>
    intro idx cur
    simp only [stampLoop, List.length_cons]
    rw [ih]

theorem stampLoop_page_content (docId : String) (meta : Metadata) :
    ∀ (cs : List String) (idx : Nat) (cur : String),
      (stampLoop docId meta cs idx cur).map (fun c => c.page_content) = cs := by
  intro cs
  induction cs with
  | nil => intro idx cur; rfl
  | cons c rest ih =>
    intro idx cur
    simp only [stampLoop, List.map_cons]
    rw [ih]

theorem stampLoop_chunk_index (docId : String) (meta : Metadata) :
    ∀ (cs : List String) (idx : Nat) (cur : String),
      (stampLoop docId meta cs idx cur).map (fun c => c.metadata.chunk_index)
        = (List.range' idx cs.length).map some := by
  intro cs
  induction cs with
  | nil => intro idx cur; rfl
  | cons c rest ih =>
    intro idx cur
    simp only [stampLoop, List.length_cons, List.range'_succ, List.map_cons]
    rw [ih]

theorem stampLoop_tag (docId : String) (meta : Metadata) :
    ∀ (cs : List String) (idx : Nat) (cur : String),
      ∀ c ∈ stampLoop docId meta cs idx cur, c.metadata.tag = meta.tag := by
  intro cs
  induction cs with
  | nil => intro idx cur c hc; exact absurd hc (List.not_mem_nil c)
  | cons x rest ih =>
    intro idx cur c hc
    simp only [stampLoop, List.mem_cons] at hc
    cases hc with
    | inl h => rw [h]
    | inr h => exact ih (idx + 1) _ c h

theorem stampLoop_section (docId : String) (meta : Metadata) :
    ∀ (cs : List String) (idx : Nat) (cur : String) (j : Nat) (c : Document),
      (stampLoop docId meta cs idx cur)[j]? = some c →
        c.metadata.section_
          = some (((cs.take (j + 1)).filterMap _extract_heading_from_chunk).getLastD cur) := by
  intro cs
  induction cs with
  | nil => intro idx cur j c hc; simp [stampLoop] at hc
  | cons x rest ih =>
    intro idx cur j c hc
    cases j with
    | zero =>
      simp only [stampLoop, List.getElem?_cons_zero, Option.some.injEq] at hc
      subst hc
      cases hx : _extract_heading_from_chunk x with
      | none => simp [List.take_succ_cons, List.filterMap_cons, hx]
      | some h => simp [List.take_succ_cons, List.filterMap_cons, hx]
    | succ j =>
      simp only [stampLoop, List.getElem?_cons_succ] at hc
      rw [ih (idx + 1) _ j c hc]
      cases hx : _extract_heading_from_chunk x with
      | none => simp [List.take_succ_cons, List.filterMap_cons, hx]
      | some h =>
        simp only [List.take_succ_cons, List.filterMap_cons, hx, List.getLastD_cons]

theorem chunk_documents_flatten (split : String → List String)
    (documents : List Document) (key : String) (rh : Bool) :
    chunk_documents split documents key rh
      = (documents.map (chunkPage split key rh)).flatten := by
  unfold chunk_documents
  cases documents <;> simp

theorem chunkPage_section (split : String → List String) (key : String) (rh : Bool)
    (d : Document) (j : Nat) (c : Document)
    (hc : (chunkPage split key rh d)[j]? = some c) :
    c.metadata.section_
      = some ((((chunkPage split key rh d).take (j + 1)).filterMap
          (fun ch => _extract_heading_from_chunk ch.page_content)).getLastD "") := by
  simp only [chunkPage] at hc ⊢
  rw [stampLoop_section _ _ _ 0 "" j c hc]
  have hpc := stampLoop_page_content
    (pyOrD (metaGet d.metadata key) ((metaGet d.metadata "source").getD ""))
    d.metadata
    (split (if rh then _ensure_heading_paragraph_breaks d.page_content else d.page_content))
    0 ""
  rw [show (fun ch : Document => _extract_heading_from_chunk ch.page_content)
      = (_extract_heading_from_chunk ∘ fun ch : Document => ch.page_content) from rfl]
  rw [← List.filterMap_map, List.map_take, hpc]

/-- Claim C7.  `chunk_documents` processes pages independently (the output
is the concatenation of the per-page chunk lists, so the tracked section
resets for each page), and within one page the `section` stamped on the
chunk at position `j` is the last chunk content among the first `j + 1`
whose first trimmed line satisfies the heading heuristic — the empty string
when no such chunk has appeared yet.  So a heading-opening chunk becomes
the current section and carries forward across the later chunks of the page. -/
theorem C7_section_carry (split : String → List String) (documents : List Document)
    (d : Document) (j : Nat) (c : Document)
    (hc : (chunkPage split "file_name" true d)[j]? = some c) :
    chunk_documents split documents "file_name" true
        = (documents.map (chunkPage split "file_name" true)).flatten ∧
    c.metadata.section_
      = some ((((chunkPage split "file_name" true d).take (j + 1)).filterMap
          (fun ch => _extract_heading_from_chunk ch.page_content)).getLastD "") :=
  ⟨chunk_documents_flatten split documents "file_name" true,
   chunkPage_section split "file_name" true d j c hc⟩

/-- The single chunk produced for `introDoc`. -/
def introChunk : Document :=
  (chunkPage oneChunkSplit "file_name" true introDoc).headD ⟨"", {}⟩

/-- The single chunk produced for `noHeadingDoc`. -/
def noHeadingChunk : Document :=
  (chunkPage oneChunkSplit "file_name" true noHeadingDoc).headD ⟨"", {}⟩

/-- Witness for C7: the single chunk of `"Introduction\n\nFirst paragraph."`
is stamped with section `"Introduction"`, and the single chunk of a page
with no heading-like line is stamped with section `""`. -/
theorem C7_section_carry_witness :
    introChunk.metadata.section_ = some "Introduction" ∧
    noHeadingChunk.metadata.section_ = some "" := by
  constructor
  · have h := (C7_section_carry oneChunkSplit [introDoc] introDoc 0 introChunk
      (by decide)).2
    rw [h]; decide
  · have h := (C7_section_carry oneChunkSplit [noHeadingDoc] noHeadingDoc 0
      noHeadingChunk (by decide)).2
    rw [h]; decide

theorem chunkPage_chunk_index (split : String → List String) (key : String)
    (rh : Bool) (d : Document) :
    (chunkPage split key rh d).map (fun c => c.metadata.chunk_index)
      = (List.range (chunkPage split key rh d).length).map some := by
  simp only [chunkPage]
  rw [stampLoop_chunk_index, stampLoop_length, List.range_eq_range']

/-- Claim C8.  `chunk_documents` emits the chunks of each page contiguously (the
output is the concatenation of the per-page chunk lists), and within each
page the stamped `chunk_index` values are exactly `0, 1, ..., n-1` in
emission order — no gaps, no repeats.  They are not globally unique across
pages: two one-chunk pages of the same document both receive
`chunk_index = 0`. -/
theorem C8_chunk_index (split : String → List String) (documents : List Document) :
    chunk_documents split documents "file_name" true
        = (documents.map (chunkPage split "file_name" true)).flatten ∧
    (∀ d : Document, (chunkPage split "file_name" true d).map (fun c => c.metadata.chunk_index)
        = (List.range (chunkPage split "file_name" true d).length).map some) ∧
    (chunk_documents oneChunkSplit twoPages "file_name" true).map
        (fun c => c.metadata.chunk_index) = [some 0, some 0] :=
  ⟨chunk_documents_flatten split documents "file_name" true,
   fun d => chunkPage_chunk_index split "file_name" true d,
   by decide⟩

/-- Claim C1 (code-bug evidence).  With a retriever returning zero
documents, `run_rag` still renders the prompt and invokes the chat model:
the returned answer is whatever the model produced (which does not contain
the fixed message), and a model that raises makes `run_rag` raise — there
is no empty-retrieval short circuit in the shipped code. -/
theorem C1_empty_retrieval_invokes_llm :
    run_rag "any question" [] (fun _ => .ok "LLM OUTPUT")
        = .ok ⟨"LLM OUTPUT", []⟩ ∧
    run_rag "any question" [] (fun _ => .error "LLM WAS INVOKED")
        = .error "LLM WAS INVOKED" ∧
    strContainsSubstr "LLM OUTPUT" "No relevant passages found" = false := by
  exact ⟨rfl, rfl, by decide⟩

/-- Claim C2 (code-bug evidence).  With one retrieved document and a chat
model that raises `"Rate limit exceeded"`, `run_rag` propagates the
exception to the caller instead of returning a degraded `RAGResult`:
there is no exception handler around the generation call. -/
theorem C2_llm_failure_propagates :
    run_rag "any question" [contextDoc] (fun _ => .error "Rate limit exceeded")
      = .error "Rate limit exceeded" := rfl

theorem format_sources_foldl (docs : List Document) :
    ∀ acc : List (String × Int),
      docs.foldl (fun acc doc =>
          let key := sourceKey doc.metadata
          if key ∈ acc then acc else acc ++ [key]) acc
        = acc ++ dedupFirstSpec
            ((docs.map (fun d => sourceKey d.metadata)).filter
              (fun x => decide (x ∉ acc))) := by
  induction docs with
  | nil => intro acc; simp [dedupFirstSpec]
  | cons d ds ih =>
    intro acc
    rw [List.foldl_cons, List.map_cons, List.filter_cons]
    by_cases hk : sourceKey d.metadata ∈ acc
    · rw [if_pos hk]
      simp only [hk, not_true_eq_false, decide_False, Bool.false_eq_true, if_false]
      exact ih acc
    · rw [if_neg hk]
      simp only [hk, not_false_eq_true, decide_True, if_true]
      rw [ih (acc ++ [sourceKey d.metadata]), dedupFirstSpec]
      rw [List.append_assoc, List.singleton_append]
      have hfil : (ds.map (fun d => sourceKey d.metadata)).filter
            (fun x => decide (x ∉ acc ++ [sourceKey d.metadata]))
          = ((ds.map (fun d => sourceKey d.metadata)).filter
              (fun x => decide (x ∉ acc))).filter
            (fun x => decide (x ≠ sourceKey d.metadata)) := by
        rw [List.filter_filter]
        apply List.filter_congr
        intro x _
        by_cases h1 : x = sourceKey d.metadata <;> by_cases h2 : x ∈ acc <;>
          simp [h1, h2]
      rw [hfil]

/-- Claim C9.  `format_sources` maps each retrieved document to its
`(document_id, page)` key — with the page coerced through `pageCoerce`,
defaulting to `0` when missing or unparseable — and keeps the first
occurrence of each key in order, dropping every later duplicate.  On the
documented example the result is `[("f.pdf", 1), ("f.pdf", 2)]`. -/
theorem C9_format_sources_dedup (docs : List Document) :
    format_sources docs
        = dedupFirstSpec (docs.map (fun d => sourceKey d.metadata)) ∧
    format_sources dedupDocs = [("f.pdf", 1), ("f.pdf", 2)] ∧
    format_sources badPageDocs = [("g.pdf", 0)] := by
  refine ⟨?_, by decide, by decide⟩
  rw [format_sources, format_sources_foldl docs []]
  rw [List.nil_append]
  congr 1
  apply (List.filter_eq_self).mpr
  intro x _
  simp

/-! Lemmas about the store and the indexer. -/

theorem toBatches_flatten (l : List Document) : (toBatches l).flatten = l := by
  match l with
  | [] => simp [toBatches]
  | x :: xs =>
    rw [toBatches, List.flatten_cons, toBatches_flatten (xs.drop 99)]
    rw [show (x :: xs).take 100 = x :: xs.take 99 from rfl, List.cons_append,
      List.take_append_drop]
termination_by l.length
decreasing_by
  simp_wf
  exact Nat.lt_succ_of_le (Nat.sub_le _ _)

theorem foldl_add_batches (bs : List (List Document)) :
    ∀ s : Store,
      (bs.foldl (fun s b => Store.mk (s.records ++ b)) s).records
        = s.records ++ bs.flatten := by
  induction bs with
  | nil => intro s; simp
  | cons b bs ih =>
    intro s
    rw [List.foldl_cons, ih, List.flatten_cons, ← List.append_assoc]

theorem addDocumentsBatched_records (s : Store) (docs : List Document) :
    (addDocumentsBatched s docs).records = s.records ++ docs := by
  unfold addDocumentsBatched
  by_cases h : docs.isEmpty
  · rw [if_pos h, List.isEmpty_iff.mp h, List.append_nil]
  · rw [if_neg h, foldl_add_batches, toBatches_flatten]

theorem index_pdf_records (split : String → List String) (pr : PdfLoadResult)
    (fn : String) (bytes : Nat) (ts pd cn : String) (store : Store) :
    ((index_pdf split pr fn bytes ts pd cn store).1).records
      = store.records.filter (fun r => !(r.metadata.document_id == some fn))
        ++ (chunk_documents split pr.documents "file_name" true).map
            (stampDocMeta ts pr.total_pages bytes
              (chunk_documents split pr.documents "file_name" true).length) := by
  simp only [index_pdf]
  rw [addDocumentsBatched_records]
  rfl

theorem chunkPage_tag (split : String → List String) (key : String) (rh : Bool)
    (d : Document) : ∀ c ∈ chunkPage split key rh d, c.metadata.tag = d.metadata.tag := by
  intro c hc
  simp only [chunkPage] at hc
  exact stampLoop_tag _ _ _ 0 "" c hc

theorem chunk_documents_tag (split : String → List String) (documents : List Document)
    (key : String) (rh : Bool) :
    ∀ c ∈ chunk_documents split documents key rh,
      ∃ d ∈ documents, c.metadata.tag = d.metadata.tag := by
  intro c hc
  rw [chunk_documents_flatten, List.mem_flatten] at hc
  obtain ⟨l, hl, hcl⟩ := hc
  rw [List.mem_map] at hl
  obtain ⟨d, hd, rfl⟩ := hl
  exact ⟨d, hd, chunkPage_tag split key rh d c hcl⟩

/-- Claim C3 (code-bug evidence).  `index_pdf` — the only function that
persists chunks — stamps `upload_timestamp`, `doc_pages`, `doc_bytes` and
`doc_total_chunks` on every chunk but never writes a `tag`: every record it
adds to the store still has `tag = none` whenever the loaded pages carry no
tag (which the PDF loader never sets).  The `tag` supplied to `add_pdf`
cannot reach the stored chunks. -/
theorem C3_no_tag_stamped (split : String → List String) (pr : PdfLoadResult)
    (fn : String) (bytes : Nat) (ts pd cn : String) (store : Store)
    (hpages : ∀ d ∈ pr.documents, d.metadata.tag = none) :
    ∀ c ∈ ((index_pdf split pr fn bytes ts pd cn store).1).records,
      c ∈ store.records ∨ c.metadata.tag = none := by
  intro c hc
  rw [index_pdf_records, List.mem_append] at hc
  cases hc with
  | inl h => exact Or.inl (List.mem_filter.mp h).1
  | inr h =>
    right
    rw [List.mem_map] at h
    obtain ⟨c0, hc0, rfl⟩ := h
    obtain ⟨d, hd, htag⟩ := chunk_documents_tag split pr.documents "file_name" true c0 hc0
    show c0.metadata.tag = none
    rw [htag]
    exact hpages d hd

/-- The loaded pages of the C3 witness scenario. -/
def onePage : List Document :=
  [⟨"Hello world" ++ NL ++ NL ++ "Body text here.", pageMeta1⟩]

/-- The empty store. -/
def emptyStore : Store := ⟨[]⟩

/-- Witness for C3: indexing a one-page PDF into an empty store leaves
every stored chunk with `tag = none`. -/
theorem C3_no_tag_stamped_witness :
    (∀ d ∈ onePage, d.metadata.tag = none) ∧
    ∀ c ∈ ((index_pdf oneChunkSplit ⟨"/path/to/file.pdf", onePage, 1⟩ "file.pdf" 100
        "2025-01-15T12:00:00+00:00" "chroma_db" "oracle_rag" emptyStore).1).records,
      c ∈ emptyStore.records ∨ c.metadata.tag = none :=
  ⟨by decide,
   C3_no_tag_stamped oneChunkSplit ⟨"/path/to/file.pdf", onePage, 1⟩ "file.pdf" 100
     "2025-01-15T12:00:00+00:00" "chroma_db" "oracle_rag" emptyStore (by decide)⟩

theorem countFor_filter_append (recs S : List Document) (fn : String) :
    countForDocument
        ⟨recs.filter (fun r => !(r.metadata.document_id == some fn)) ++ S⟩ fn
      = countForDocument ⟨S⟩ fn := by
  unfold countForDocument
  rw [List.filter_append, List.filter_filter, List.length_append]
  have h0 : recs.filter (fun r =>
      (r.metadata.document_id == some fn) && !(r.metadata.document_id == some fn)) = [] := by
    rw [show (fun r : Document =>
        (r.metadata.document_id == some fn) && !(r.metadata.document_id == some fn))
          = fun _ => false from funext fun r => Bool.and_not_self _]
    exact List.filter_false recs
  rw [h0, List.length_nil, Nat.zero_add]

theorem countFor_stamped (ts : String) (a b c : Nat) (l : List Document) (fn : String) :
    countForDocument ⟨l.map (stampDocMeta ts a b c)⟩ fn = countForDocument ⟨l⟩ fn := by
  unfold countForDocument
  rw [← List.countP_eq_length_filter, ← List.countP_eq_length_filter, List.countP_map]
  apply List.countP_congr
  intro r _
  rfl

/-- Claim C4.  `index_pdf` first deletes every stored chunk whose
`document_id` equals the file name of the document, then inserts the freshly
stamped chunks (the batched insertion appends them all); consequently
indexing the same document a second time — even with a different upload
timestamp — leaves the same number of stored chunks for that `document_id`
as indexing it once. -/
theorem C4_replace_idempotent (split : String → List String) (pr : PdfLoadResult)
    (fn : String) (bytes : Nat) (ts pd cn ts2 pd2 cn2 : String) (store : Store) :
    ((index_pdf split pr fn bytes ts pd cn store).1).records
      = store.records.filter (fun r => !(r.metadata.document_id == some fn))
        ++ (chunk_documents split pr.documents "file_name" true).map
            (stampDocMeta ts pr.total_pages bytes
              (chunk_documents split pr.documents "file_name" true).length) ∧
    countForDocument
        (index_pdf split pr fn bytes ts2 pd2 cn2
          (index_pdf split pr fn bytes ts pd cn store).1).1 fn
      = countForDocument ((index_pdf split pr fn bytes ts pd cn store).1) fn := by
  refine ⟨index_pdf_records split pr fn bytes ts pd cn store, ?_⟩
  have h1 : countForDocument ((index_pdf split pr fn bytes ts pd cn store).1) fn
      = countForDocument ⟨chunk_documents split pr.documents "file_name" true⟩ fn := by
    have e := index_pdf_records split pr fn bytes ts pd cn store
    calc countForDocument ((index_pdf split pr fn bytes ts pd cn store).1) fn
        = countForDocument ⟨((index_pdf split pr fn bytes ts pd cn store).1).records⟩ fn := rfl
      _ = countForDocument ⟨chunk_documents split pr.documents "file_name" true⟩ fn := by
          rw [e, countFor_filter_append, countFor_stamped]
  have h2 : countForDocument
        (index_pdf split pr fn bytes ts2 pd2 cn2
          (index_pdf split pr fn bytes ts pd cn store).1).1 fn
      = countForDocument ⟨chunk_documents split pr.documents "file_name" true⟩ fn := by
    have e := index_pdf_records split pr fn bytes ts2 pd2 cn2
      (index_pdf split pr fn bytes ts pd cn store).1
    calc countForDocument (index_pdf split pr fn bytes ts2 pd2 cn2
            (index_pdf split pr fn bytes ts pd cn store).1).1 fn
        = countForDocument ⟨(index_pdf split pr fn bytes ts2 pd2 cn2
            (index_pdf split pr fn bytes ts pd cn store).1).1.records⟩ fn := rfl
      _ = countForDocument ⟨chunk_documents split pr.documents "file_name" true⟩ fn := by
          rw [e, countFor_filter_append, countFor_stamped]
  rw [h1, h2]

/-- Claim C5 (code-bug evidence).  The shipped `query_pdf` accepts no
`page_min`/`page_max` parameters at all: its failure conditions are exactly
a blank query, an out-of-range `k`, a blank collection name, or a missing
persistence directory — no page-range validation exists on this query path.
The claimed validation is implemented only in `scripts/rag_cli.py`
(`pageRangeError`), which does reject a lone bound and an inverted range. -/
theorem C5_query_pdf_no_page_validation (query : String) (k : Int)
    (collection : String) (pd : Bool) (docId : Option String)
    (docs : List Document) :
    ((∃ e, query_pdf query k collection pd docId docs (fun _ => .ok "ANSWER")
        = .error e)
      ↔ (strIsEmpty (pyStrip query) = true ∨ k < 1 ∨ k > 100
          ∨ strIsEmpty (pyStrip collection) = true ∨ pd = false)) ∧
    (pageRangeError (some 1) none).isSome = true ∧
    (pageRangeError none (some 7)).isSome = true ∧
    (pageRangeError (some 10) (some 5)).isSome = true ∧
    (pageRangeError (some 5) (some 10)).isSome = false ∧
    (pageRangeError none none).isSome = false := by
  refine ⟨?_, by decide, by decide, by decide, by decide, by decide⟩
  constructor
  · intro h
    obtain ⟨e, he⟩ := h
    by_cases h1 : strIsEmpty (pyStrip query) = true
    · exact Or.inl h1
    · by_cases h2 : k < 1 ∨ k > 100
      · cases h2 with
        | inl h2 => exact Or.inr (Or.inl h2)
        | inr h2 => exact Or.inr (Or.inr (Or.inl h2))
      · by_cases h3 : strIsEmpty (pyStrip collection) = true
        · exact Or.inr (Or.inr (Or.inr (Or.inl h3)))
        · by_cases h4 : pd = false
          · exact Or.inr (Or.inr (Or.inr (Or.inr h4)))
          · exfalso
            have hpd : pd = true := by
              cases pd
              · exact absurd rfl h4
              · rfl
            simp [query_pdf, h1, h2, h3, hpd, run_rag] at he
  · intro h
    rcases h with h1 | h2 | h2 | h3 | h4
    · exact ⟨"Query cannot be empty", by simp [query_pdf, h1]⟩
    · by_cases h1 : strIsEmpty (pyStrip query) = true
      · exact ⟨"Query cannot be empty", by simp [query_pdf, h1]⟩
      · exact ⟨"k must be an integer between 1 and 100",
          by simp [query_pdf, h1, Or.inl h2]⟩
    · by_cases h1 : strIsEmpty (pyStrip query) = true
      · exact ⟨"Query cannot be empty", by simp [query_pdf, h1]⟩
      · exact ⟨"k must be an integer between 1 and 100",
          by simp [query_pdf, h1, Or.inr h2]⟩
    · by_cases h1 : strIsEmpty (pyStrip query) = true
      · exact ⟨"Query cannot be empty", by simp [query_pdf, h1]⟩
      · by_cases h2 : k < 1 ∨ k > 100
        · exact ⟨"k must be an integer between 1 and 100",
            by simp [query_pdf, h1, h2]⟩
        · exact ⟨"collection cannot be empty", by simp [query_pdf, h1, h2, h3]⟩
    · by_cases h1 : strIsEmpty (pyStrip query) = true
      · exact ⟨"Query cannot be empty", by simp [query_pdf, h1]⟩
      · by_cases h2 : k < 1 ∨ k > 100
        · exact ⟨"k must be an integer between 1 and 100",
            by simp [query_pdf, h1, h2]⟩
        · by_cases h3 : strIsEmpty (pyStrip collection) = true
          · exact ⟨"collection cannot be empty", by simp [query_pdf, h1, h2, h3]⟩
          · exact ⟨"Persistence directory does not exist",
              by simp [query_pdf, h1, h2, h3, h4]⟩

/-- Claim C10.  When the (non-blank) `document_id` matches no stored chunk,
`remove_pdf` succeeds with `deleted_chunks = 0`, issues no delete (the
guarded branch returns the store untouched), and the collection is
unchanged. -/
theorem C10_remove_pdf_no_match (document_id collection : String) (store : Store)
    (h1 : strIsEmpty (pyStrip document_id) = false)
    (h2 : strIsEmpty (pyStrip collection) = false)
    (h3 : countForDocument store (pyStrip document_id) = 0) :
    remove_pdf document_id collection true store = .ok (store, 0) := by
  unfold countForDocument at h3
  have hnil : store.records.filter
      (fun r => r.metadata.document_id == some (pyStrip document_id)) = [] :=
    List.length_eq_zero.mp h3
  simp [remove_pdf, h1, h2, hnil]

/-- Witness for C10: removing `"gone.pdf"` from a store holding only a
chunk of `"other.pdf"` deletes nothing and leaves the store unchanged. -/
theorem C10_remove_pdf_no_match_witness :
    strIsEmpty (pyStrip "gone.pdf") = false ∧
    strIsEmpty (pyStrip "oracle_rag") = false ∧
    countForDocument otherStore (pyStrip "gone.pdf") = 0 ∧
    remove_pdf "gone.pdf" "oracle_rag" true otherStore = .ok (otherStore, 0) :=
  ⟨by decide, by decide, by decide,
   C10_remove_pdf_no_match "gone.pdf" "oracle_rag" otherStore
     (by decide) (by decide) (by decide)⟩

end OracleRag
